import Mathlib

/-!
Shallow embedding of `src/services/aiService.js` from the expense-tracker
backend: the deterministic stats engine `computeBasicStats` and the two
public operations `analyzeExpenses` / `getExpenseInsights`.

JavaScript numbers are modelled as exact rationals plus a NaN element
(`JSNum`); raw field values as a small dynamic-value type (`JSVal`).
The optional generative-text provider is modelled at its observable
boundary by an outcome value (provider absent, call rejected, extracted
text unparsable, or parsed JSON value), since the network call itself is
outside the shallow embedding.
-/

namespace ExpenseTracker

/-- A JavaScript number: either NaN or a finite value, idealized as an
exact rational (double rounding and infinities are not modelled; every
literal appearing in the source is exactly representable here). -/
inductive JSNum where
  | nan : JSNum
  | num (q : ℚ) : JSNum
deriving DecidableEq

/-- JS `+` on numbers: NaN propagates. -/
def jsAdd : JSNum → JSNum → JSNum
  | .num a, .num b => .num (a + b)
  | _, _ => .nan

/-- JS `-` on numbers: NaN propagates. -/
def jsSub : JSNum → JSNum → JSNum
  | .num a, .num b => .num (a - b)
  | _, _ => .nan

/-- JS multiplication by a numeric literal: NaN propagates. -/
def jsMulC : JSNum → ℚ → JSNum
  | .num a, c => .num (a * c)
  | .nan, _ => .nan

/-- JS division by a nonzero numeric constant: NaN propagates. -/
def jsDivC : JSNum → ℚ → JSNum
  | .num a, c => .num (a / c)
  | .nan, _ => .nan

/-- JS `>` on numbers: any comparison involving NaN is false. -/
def jsGt : JSNum → JSNum → Bool
  | .num a, .num b => decide (b < a)
  | _, _ => false

/-- JS `<` on numbers: any comparison involving NaN is false. -/
def jsLt : JSNum → JSNum → Bool
  | .num a, .num b => decide (a < b)
  | _, _ => false

/-- JS `x > c` against a numeric literal. -/
def jsGtC (x : JSNum) (c : ℚ) : Bool := jsGt x (.num c)

/-- Truthiness of a JS number: `0` and `NaN` are falsy. -/
def jsTruthyNum : JSNum → Bool
  | .nan => false
  | .num q => decide (q ≠ 0)

/-- JS `Math.round`: half-up rounding, i.e. `floor(x + 1/2)`; NaN sticks. -/
def jsRound : JSNum → JSNum
  | .nan => .nan
  | .num q => .num (⌊q + 1/2⌋ : ℤ)

/-- A raw JS field value, as far as the claims need: null, undefined,
NaN, a finite number, a string, or a boolean. -/
inductive JSVal where
  | vNull : JSVal
  | vUndefined : JSVal
  | vNaN : JSVal
  | vNum (q : ℚ) : JSVal
  | vStr (s : String) : JSVal
  | vBool (b : Bool) : JSVal
deriving DecidableEq

/-- JS truthiness of a raw value. -/
def jsTruthy : JSVal → Bool
  | .vNull => false
  | .vUndefined => false
  | .vNaN => false
  | .vNum q => decide (q ≠ 0)
  | .vStr s => decide (s ≠ "")
  | .vBool b => b

/-- Split a character list on a separator character. -/
def splitOnChar (c : Char) : List Char → List (List Char)
  | [] => [[]]
  | x :: xs =>
    let r := splitOnChar c xs
    if x = c then [] :: r
    else
      match r with
      | h :: t => (x :: h) :: t
      | [] => [[x]]

/-- Value of a list of decimal digit characters, most significant first. -/
def natOfDigits (l : List Char) : ℕ :=
  l.foldl (fun v c => v * 10 + (c.toNat - 48)) 0

/-- JS `Number(...)` applied to a string: the decimal-literal fragment of
ToNumber. The empty string converts to 0; an optional sign followed by
digits with at most one decimal point converts to its exact value; every
other string (e.g. "abc") converts to NaN. (Whitespace trimming, hex,
exponent and Infinity forms are outside the fragment exercised here.) -/
def strToNumber (s : String) : JSNum :=
  if s = "" then .num 0
  else
    let signAndBody : ℚ × List Char :=
      match s.data with
      | '-' :: rest => (-1, rest)
      | '+' :: rest => (1, rest)
      | l => (1, l)
    let sgn := signAndBody.1
    let body := signAndBody.2
    match splitOnChar '.' body with
    | [a] =>
      if a ≠ [] ∧ a.all Char.isDigit then .num (sgn * natOfDigits a)
      else .nan
    | [a, b] =>
      if (a ≠ [] ∨ b ≠ []) ∧ a.all Char.isDigit ∧ b.all Char.isDigit then
        .num (sgn * ((natOfDigits a : ℚ) + (natOfDigits b : ℚ) / (10 : ℚ) ^ b.length))
      else .nan
    | _ => .nan

/-- JS `Number(...)` coercion on a raw value. -/
def jsToNumber : JSVal → JSNum
  | .vNull => .num 0
  | .vUndefined => .nan
  | .vNaN => .nan
  | .vNum q => .num q
  | .vBool b => .num (if b then 1 else 0)
  | .vStr s => strToNumber s

/-- A raw expense record as consumed by `computeBasicStats`
(`src/services/aiService.js` lines 24-29). Per the data model, `category`,
`createdAt` and `date` are optional strings (`none` = absent/null), while
`amount` may be any raw value. -/
structure RawExpense where
  description : Option String
  amount : JSVal
  category : Option String
  createdAt : Option String
  date : Option String
deriving DecidableEq

/-- A normalized expense record (the element type of `normalized`). -/
structure NormExpense where
  description : Option String
  amount : JSNum
  category : String
  date : Option String
deriving DecidableEq

/-- `opt || ...` for an optional string: keep it only when truthy
(present and non-empty). -/
def truthyStr : Option String → Option String
  | some s => if s = "" then none else some s
  | none => none

/-- One step of the normalizing `.map` (lines 24-29):
`amount: Number(e.amount || 0)`, `category: e.category || "others"`,
`date: e.createdAt || e.date || null`. -/
def normalizeExpense (e : RawExpense) : NormExpense :=
  { description := e.description
    amount := if jsTruthy e.amount then jsToNumber e.amount else .num 0
    category :=
      match truthyStr e.category with
      | some s => s
      | none => "others"
    date :=
      match truthyStr e.createdAt with
      | some s => some s
      | none => truthyStr e.date }

/-- `(expenses || []).map(...)` (line 24): null/undefined input is
treated as the empty list. -/
def normalizeList (expenses : Option (List RawExpense)) : List NormExpense :=
  (expenses.getD []).map normalizeExpense

/-- `.reduce((s, e) => s + e.amount, 0)` (lines 31, 47-50). -/
def sumAmounts (l : List NormExpense) : JSNum :=
  l.foldl (fun s e => jsAdd s e.amount) (.num 0)

/-- Lookup in the category-breakdown object, modelled as an association
list in key-insertion order. -/
def bdLookup (bd : List (String × JSNum)) (k : String) : Option JSNum :=
  (bd.find? (fun p => decide (p.1 = k))).map (·.2)

/-- Reading `breakdown[k]`: an absent property is `undefined`, whose
numeric uses produce NaN. -/
def bdVal (bd : List (String × JSNum)) (k : String) : JSNum :=
  (bdLookup bd k).getD .nan

/-- One step of the breakdown reduce (lines 33-36):
`acc[e.category] = (acc[e.category] || 0) + e.amount`. Note the `|| 0`
also resets a stored falsy sum (0 or NaN) to 0 before adding. -/
def bdAdd (bd : List (String × JSNum)) (cat : String) (amt : JSNum) : List (String × JSNum) :=
  match bdLookup bd cat with
  | some _ =>
    bd.map (fun p =>
      if p.1 = cat then (p.1, jsAdd (if jsTruthyNum p.2 then p.2 else .num 0) amt) else p)
  | none => bd ++ [(cat, jsAdd (.num 0) amt)]

/-- `normalized.reduce(..., {})` building `categoryBreakdown`. -/
def buildBreakdown (l : List NormExpense) : List (String × JSNum) :=
  l.foldl (fun acc e => bdAdd acc e.category e.amount) []

/-- Is a comparator result `< 0`? A NaN comparator result is treated as
`+0` (ECMAScript `Array.prototype.sort` SortCompare). -/
def cmpLtZero : JSNum → Bool
  | .nan => false
  | .num q => decide (q < 0)

/-- Stable insertion of `x`: it goes before the first element `y` with
`comparator x y < 0` and after comparator-equal elements. -/
def jsInsertBy (lt : String → String → Bool) (x : String) : List String → List String
  | [] => [x]
  | y :: ys => if lt x y then x :: y :: ys else y :: jsInsertBy lt x ys

/-- `Array.prototype.sort(cmp)`, modelled as the canonical stable sort
consistent with the comparator (stability and comparator-NaN-as-zero per
ECMAScript; for an inconsistent comparator ECMAScript leaves the order
implementation-defined and this model fixes the stable insertion order). -/
def jsSortBy (lt : String → String → Bool) (l : List String) : List String :=
  l.foldl (fun acc x => jsInsertBy lt x acc) []

/-- Lines 37-40:
`Object.keys(categoryBreakdown).sort((a,b) => bd[b] - bd[a])[0] || null`. -/
def topCategoryOf (bd : List (String × JSNum)) : Option String :=
  match (jsSortBy (fun a b => cmpLtZero (jsSub (bdVal bd b) (bdVal bd a)))
      (bd.map Prod.fst)).head? with
  | some s => if s = "" then none else some s
  | none => none

/-- Lines 43-53: naive trend detection comparing the first and last
`third = max(1, floor(n/3))` records, only when `n >= 3`.
`slice(0, third)` is `take third` and `slice(-third)` is
`drop (n - third)`. -/
def trendOf (l : List NormExpense) : String :=
  if 3 ≤ l.length then
    let third := max 1 (l.length / 3)
    let firstSum := sumAmounts (l.take third)
    let lastSum := sumAmounts (l.drop (l.length - third))
    if jsGt lastSum (jsMulC firstSum (105/100)) then "increasing"
    else if jsLt lastSum (jsMulC firstSum (95/100)) then "decreasing"
    else "stable"
  else "stable"

/-- Lines 55-56: `total > 2000 ? "high" : total > 800 ? "medium" : "low"`. -/
def riskOf (total : JSNum) : String :=
  if jsGtC total 2000 then "high"
  else if jsGtC total 800 then "medium"
  else "low"

/-- Line 32: `normalized.length ? totalAmount / normalized.length : 0`. -/
def avgOf (total : JSNum) (n : ℕ) : JSNum :=
  if n = 0 then .num 0 else jsDivC total (n : ℚ)

/-- Line 61: `Math.round(avg * 100) / 100`. -/
def roundTo2 (x : JSNum) : JSNum :=
  jsMulC (jsRound (jsMulC x 100)) (1/100)

/-- The `StatsSummary` value object returned by `computeBasicStats`. -/
structure StatsSummary where
  normalized : List NormExpense
  totalAmount : JSNum
  averageTransaction : JSNum
  topCategory : Option String
  spendingTrend : String
  categoryBreakdown : List (String × JSNum)
  riskLevel : String

/-- `computeBasicStats` (lines 23-67). -/
def computeBasicStats (expenses : Option (List RawExpense)) : StatsSummary :=
  let ns := normalizeList expenses
  { normalized := ns
    totalAmount := sumAmounts ns
    averageTransaction := roundTo2 (avgOf (sumAmounts ns) ns.length)
    topCategory := topCategoryOf (buildBreakdown ns)
    spendingTrend := trendOf ns
    categoryBreakdown := buildBreakdown ns
    riskLevel := riskOf (sumAmounts ns) }

/-- Fractional decimal digits of `r/d` (with `r < d`), up to `fuel`
digits, stopping when the remainder is exhausted. -/
def fracDigits : ℕ → ℕ → ℕ → List Char
  | 0, _, _ => []
  | _ + 1, 0, _ => []
  | fuel + 1, r, d =>
    let r10 := r * 10
    Nat.digitChar (r10 / d) :: fracDigits fuel (r10 % d) d

/-- JS number-to-string conversion, on the fragment the templates use:
`NaN` prints as "NaN", integers in plain decimal, and other finite
values as (up to 32 digits of) their decimal expansion. (The shortest
round-trip double notation and exponent forms are outside this
fragment.) -/
def jsNumToString : JSNum → String
  | .nan => "NaN"
  | .num q =>
    if q.den = 1 then toString q.num
    else
      let sign := if q < 0 then "-" else ""
      let na := q.num.natAbs
      sign ++ toString (na / q.den) ++ "." ++ ⟨fracDigits 32 (na % q.den) q.den⟩

/-- `stats.topCategory || fb` interpolated into a template: the stored
category if truthy, else the fallback phrase. -/
def topOr (top : Option String) (fb : String) : String :=
  match truthyStr top with
  | some s => s
  | none => fb

/-- Outcome of the optional provider path inside `analyzeExpenses`:
the client is absent (`genAI` null), the model construction / network
call / extraction threw (landing in the catch block), or extraction
produced a text. This models the provider boundary; the call itself is
external to the embedding. -/
inductive AnalyzeOutcome where
  | noProvider : AnalyzeOutcome
  | callFails : AnalyzeOutcome
  | succeeds (text : String) : AnalyzeOutcome

/-- The deterministic narrative returned when no provider is configured
(lines 96-103). -/
def analyzeNoProviderText (stats : StatsSummary) : String :=
  "Total spent: " ++ jsNumToString stats.totalAmount ++
  "\nTop category: " ++ topOr stats.topCategory "N/A" ++
  "\nAverage transaction: " ++ jsNumToString stats.averageTransaction ++
  "\nTrend: " ++ stats.spendingTrend ++
  "\nSuggested actions: Review top spending categories (" ++
  topOr stats.topCategory "N/A" ++ ") and reduce non-essential spending."

/-- The catch-block fallback template (lines 149-152). The header
contains the literal bytes of the source file (a mojibake'd em dash)
followed by a line break before the data. -/
def analyzeFallbackText (stats : StatsSummary) : String :=
  "AI unavailable â€” fallback analysis:\nTotal: " ++
  jsNumToString stats.totalAmount ++
  ", Top category: " ++ topOr stats.topCategory "N/A" ++
  ", Avg: " ++ jsNumToString stats.averageTransaction ++
  ", Trend: " ++ stats.spendingTrend

/-- `analyzeExpenses` (lines 90-154): computes stats, then either the
deterministic narrative (no provider), the extracted text as-is
(successful call), or the fallback line recomputed from the same pure
stats (catch block). Totality of this definition is the
never-raises-past-its-boundary property. -/
def analyzeExpenses (o : AnalyzeOutcome) (expenses : Option (List RawExpense)) : String :=
  match o with
  | .noProvider => analyzeNoProviderText (computeBasicStats expenses)
  | .succeeds t => t
  | .callFails => analyzeFallbackText (computeBasicStats expenses)

/-- A JavaScript value as produced by `JSON.parse` (and as carried in
the structured insight objects). -/
inductive JVal where
  | jNull : JVal
  | jBool (b : Bool) : JVal
  | jNum (n : JSNum) : JVal
  | jStr (s : String) : JVal
  | jArr (elems : List JVal) : JVal
  | jObj (fields : List (String × JVal)) : JVal

/-- The keys of a JS object value, in property order; `none` when the
value is not an object. -/
def jKeys : JVal → Option (List String)
  | .jObj fs => some (fs.map Prod.fst)
  | _ => none

/-- Property read on a JS object value. -/
def jGet (v : JVal) (k : String) : Option JVal :=
  match v with
  | .jObj fs => (fs.find? (fun p => decide (p.1 = k))).map (·.2)
  | _ => none

/-- Outcome of the optional provider path inside `getExpenseInsights`:
client absent, call threw (outer catch), extracted text failed
`JSON.parse` (inner catch), or parsed to a JS value `j` of arbitrary
shape. -/
inductive InsightsOutcome where
  | noProvider : InsightsOutcome
  | callFails : InsightsOutcome
  | parseFails : InsightsOutcome
  | parsed (j : JVal) : InsightsOutcome

/-- The quick tip of the no-provider object (lines 166-168). -/
def insightsNoProviderTip (stats : StatsSummary) : String :=
  "Consider reducing expenses in " ++ topOr stats.topCategory "high-cost categories" ++
  " by 10%"

/-- The quick tip of the parse-failure fallback object (lines 202-204). -/
def insightsParseFailTip (stats : StatsSummary) : String :=
  "Consider tracking and reducing " ++ topOr stats.topCategory "high-cost categories" ++
  " spending."

/-- The quick tip of the call-failure fallback object (lines 217-219). -/
def insightsCallFailTip (stats : StatsSummary) : String :=
  "Consider tracking and reducing " ++ topOr stats.topCategory "high-cost categories" ++
  " spending."

/-- The structured fallback object shared by the three deterministic
paths of `getExpenseInsights` (lines 161-170, 197-207, 212-222): the
six properties in source order, with the path-specific quick tip. -/
def insightsFallback (stats : StatsSummary) (tip : String) : JVal :=
  .jObj
    [("topCategory",
        match stats.topCategory with
        | some s => .jStr s
        | none => .jNull),
     ("totalSpent", .jNum stats.totalAmount),
     ("averageTransaction", .jNum stats.averageTransaction),
     ("spendingTrend", .jStr stats.spendingTrend),
     ("quickTip", .jStr tip),
     ("riskLevel", .jStr stats.riskLevel)]

/-- `getExpenseInsights` (lines 156-223): the parsed JSON value is
returned as-is; every other path returns the six-property fallback
object (the catch block recomputes `computeBasicStats`, which is pure,
so one shared computation is used here). Totality of this definition is
the never-raises-past-its-boundary property. -/
def getExpenseInsights (o : InsightsOutcome) (expenses : Option (List RawExpense)) : JVal :=
  let stats := computeBasicStats expenses
  match o with
  | .noProvider => insightsFallback stats (insightsNoProviderTip stats)
  | .parsed j => j
  | .parseFails => insightsFallback stats (insightsParseFailTip stats)
  | .callFails => insightsFallback stats (insightsCallFailTip stats)

/-- The six property names of the insights schema, in source order. -/
def sixKeys : List String :=
  ["topCategory", "totalSpent", "averageTransaction", "spendingTrend",
   "quickTip", "riskLevel"]

/-- A record carrying only a numeric amount (no category or dates). -/
def amtRec (q : ℚ) : RawExpense :=
  { description := none, amount := .vNum q, category := none,
    createdAt := none, date := none }

/-- A record whose amount is the non-numeric string "abc". -/
def abcRec : RawExpense :=
  { description := none, amount := .vStr "abc", category := none,
    createdAt := none, date := none }

theorem jsGt_irrefl (a : JSNum) : jsGt a a = false := by
  cases a <;> simp [jsGt]

theorem jsGt_nan_left (b : JSNum) : jsGt .nan b = false := by
  cases b <;> simp [jsGt]

theorem jsGt_nan_right (a : JSNum) : jsGt a .nan = false := by
  cases a <;> simp [jsGt]

theorem jsGt_trans_neg {a b c : JSNum} (hab : jsGt a b = true)
    (hcb : jsGt c b = false) : jsGt c a = false := by
  cases a <;> cases b <;> cases c <;> simp_all [jsGt]
  linarith

theorem cmpLtZero_jsSub (a b : JSNum) : cmpLtZero (jsSub b a) = jsGt a b := by
  cases a <;> cases b <;> simp [cmpLtZero, jsSub, jsGt, sub_neg]

theorem jsAdd_assoc (a b c : JSNum) : jsAdd (jsAdd a b) c = jsAdd a (jsAdd b c) := by
  cases a <;> cases b <;> cases c <;> simp [jsAdd, add_assoc]

theorem jsAdd_zero_left (x : JSNum) : jsAdd (.num 0) x = x := by
  cases x <;> simp [jsAdd]

theorem jsAdd_zero_right (x : JSNum) : jsAdd x (.num 0) = x := by
  cases x <;> simp [jsAdd]

theorem jsAdd_nan_left (b : JSNum) : jsAdd .nan b = .nan := by
  cases b <;> simp [jsAdd]

/-- Peeling the amount-sum fold into a right fold. -/
theorem foldl_amounts_eq (l : List NormExpense) (a : JSNum) :
    l.foldl (fun s e => jsAdd s e.amount) a =
      jsAdd a (l.foldr (fun e s => jsAdd e.amount s) (.num 0)) := by
  induction l generalizing a with
  | nil => simp [jsAdd_zero_right]
  | cons e l ih =>
    simp only [List.foldl_cons, List.foldr_cons, ih (jsAdd a e.amount), jsAdd_assoc]

theorem sumAmounts_eq_foldr (l : List NormExpense) :
    sumAmounts l = l.foldr (fun e s => jsAdd e.amount s) (.num 0) := by
  rw [sumAmounts, foldl_amounts_eq, jsAdd_zero_left]

/-- A NaN amount anywhere makes the whole sum NaN. -/
theorem sumAmounts_nan {l : List NormExpense} {e : NormExpense}
    (he : e ∈ l) (ha : e.amount = .nan) : sumAmounts l = .nan := by
  rw [sumAmounts_eq_foldr]
  induction l with
  | nil => cases he
  | cons x l ih =>
    rcases List.mem_cons.mp he with h | h
    · subst h
      simp [List.foldr_cons, ha, jsAdd_nan_left]
    · simp only [List.foldr_cons, ih h]
      cases x.amount <;> simp [jsAdd]

/-- When every amount is finite, the sum is finite. -/
theorem sumAmounts_finite {l : List NormExpense}
    (h : ∀ e ∈ l, e.amount ≠ .nan) : ∃ q : ℚ, sumAmounts l = .num q := by
  rw [sumAmounts_eq_foldr]
  induction l with
  | nil => exact ⟨0, rfl⟩
  | cons x l ih =>
    obtain ⟨q, hq⟩ := ih (fun e he => h e (List.mem_cons_of_mem _ he))
    obtain ⟨p, hp⟩ : ∃ p : ℚ, x.amount = .num p := by
      cases hx : x.amount with
      | nan => exact absurd hx (h x (List.mem_cons_self x l))
      | num p => exact ⟨p, rfl⟩
    exact ⟨p + q, by simp only [List.foldr_cons, hq, hp]; simp [jsAdd]⟩

/-- C1 (corrected). `getExpenseInsights` resolves without raising on
every path (the embedding is total), and on the no-provider,
parse-failure and call-failure paths it returns an object with exactly
the six schema keys; but on the provider path a successfully parsed
extracted text is returned as-is, whatever its shape, so the six-key
guarantee does not extend to that path. -/
theorem c1_insights_schema_amended (expenses : Option (List RawExpense)) :
    jKeys (getExpenseInsights .noProvider expenses) = some sixKeys
    ∧ jKeys (getExpenseInsights .parseFails expenses) = some sixKeys
    ∧ jKeys (getExpenseInsights .callFails expenses) = some sixKeys
    ∧ ∀ j, getExpenseInsights (.parsed j) expenses = j :=
  ⟨rfl, rfl, rfl, fun _ => rfl⟩

/-- C1 counterexample: when the extracted text parses as the JSON object
with no properties, `getExpenseInsights` returns that empty object,
which does not carry the six schema keys. -/
theorem c1_insights_schema_cx :
    getExpenseInsights (.parsed (.jObj [])) none = .jObj []
    ∧ jKeys (.jObj []) ≠ some sixKeys :=
  ⟨rfl, by decide⟩

/-- C2 (corrected). `analyzeExpenses` resolves to a string on every path
(the embedding is total): the successfully extracted text is returned
raw, and on any failure of the provider path the result is the fallback
string recomputed from the deterministic stats, carrying the total, the
top category (or "N/A"), the average and the trend — but that string is
a two-line string (a header line, then the data line), not a single
line. -/
theorem c2_analyze_fallback_amended (expenses : Option (List RawExpense)) :
    analyzeExpenses .callFails expenses =
      "AI unavailable â€” fallback analysis:\nTotal: " ++
      jsNumToString (computeBasicStats expenses).totalAmount ++
      ", Top category: " ++ topOr (computeBasicStats expenses).topCategory "N/A" ++
      ", Avg: " ++ jsNumToString (computeBasicStats expenses).averageTransaction ++
      ", Trend: " ++ (computeBasicStats expenses).spendingTrend
    ∧ ∀ t, analyzeExpenses (.succeeds t) expenses = t :=
  ⟨rfl, fun _ => rfl⟩

/-- C2 counterexample: the fallback string contains a line break (after
the header), so it is not a single-line string. -/
theorem c2_analyze_fallback_cx :
    '\n' ∈ (analyzeExpenses .callFails none).data := by decide

/-- C4 (corrected). Normalization coerces a falsy `amount` (missing,
null, 0, empty string, NaN, false) to the number 0, but a truthy
`amount` goes through JS `Number` coercion, which yields NaN — not 0 —
for a non-numeric string such as "abc"; `category` defaults to "others"
exactly when falsy; `date` is `createdAt` when truthy, else the `date`
field when truthy, else null. -/
theorem c4_normalization_amended (e : RawExpense) :
    (normalizeExpense e).amount =
      (if jsTruthy e.amount then jsToNumber e.amount else .num 0)
    ∧ (normalizeExpense e).category =
        (match truthyStr e.category with
         | some s => s
         | none => "others")
    ∧ (normalizeExpense e).date =
        (match truthyStr e.createdAt with
         | some s => some s
         | none => truthyStr e.date)
    ∧ jsToNumber (.vStr "abc") = .nan :=
  ⟨rfl, rfl, rfl, by decide⟩

/-- C4 counterexample: a record whose amount is the truthy non-numeric
string "abc" normalizes to amount NaN, not 0. -/
theorem c4_normalization_cx :
    (normalizeExpense abcRec).amount = .nan ∧ JSNum.nan ≠ JSNum.num 0 :=
  ⟨by decide, by decide⟩

/-- C6 (confirmed). `totalAmount` is the (JS) sum of the coerced amounts
of all normalized records; null/undefined input is treated exactly as
the empty list; and on the empty list the total is 0, the average is 0,
the top category is null, the risk level is "low" and the trend is
"stable". -/
theorem c6_total_and_empty (expenses : Option (List RawExpense)) :
    (computeBasicStats expenses).totalAmount =
      (computeBasicStats expenses).normalized.foldr
        (fun e s => jsAdd e.amount s) (.num 0)
    ∧ computeBasicStats none = computeBasicStats (some [])
    ∧ (computeBasicStats (some [])).totalAmount = .num 0
    ∧ (computeBasicStats (some [])).averageTransaction = .num 0
    ∧ (computeBasicStats (some [])).topCategory = none
    ∧ (computeBasicStats (some [])).riskLevel = "low"
    ∧ (computeBasicStats (some [])).spendingTrend = "stable" :=
  ⟨sumAmounts_eq_foldr _, rfl, by decide,
   by
    simp [computeBasicStats, normalizeList, sumAmounts, avgOf, roundTo2,
      jsMulC, jsRound, jsDivC]
    norm_num,
   by decide, by decide, by decide⟩

/-- C9 (corrected). The parse-failure and call-failure paths of
`getExpenseInsights` return the same structured fallback object as each
other, in the same six-attribute format as the no-provider path, with
all six attributes populated; but the quick-tip wording of the two
failure paths is identical, not slightly different (the wording that
differs is the no-provider tip). -/
theorem c9_insights_failure_paths_amended (expenses : Option (List RawExpense)) :
    getExpenseInsights .parseFails expenses = getExpenseInsights .callFails expenses
    ∧ jKeys (getExpenseInsights .parseFails expenses) = some sixKeys
    ∧ jKeys (getExpenseInsights .callFails expenses) = some sixKeys
    ∧ jKeys (getExpenseInsights .noProvider expenses) = some sixKeys :=
  ⟨rfl, rfl, rfl, rfl⟩

/-- C9 counterexample: on a concrete input the quick tips of the
parse-failure and call-failure paths are the same string, refuting that
their wording differs. -/
theorem c9_insights_failure_paths_cx :
    jGet (getExpenseInsights .parseFails (some [])) "quickTip" =
      jGet (getExpenseInsights .callFails (some [])) "quickTip"
    ∧ jGet (getExpenseInsights .parseFails (some [])) "quickTip" =
        some (.jStr "Consider tracking and reducing high-cost categories spending.") :=
  ⟨rfl, rfl⟩

theorem normalize_amtRec (q : ℚ) : (normalizeExpense (amtRec q)).amount = .num q := by
  by_cases h : q = 0 <;> simp [normalizeExpense, amtRec, jsTruthy, jsToNumber, h]

theorem totalAmount_amtRec (q : ℚ) :
    (computeBasicStats (some [amtRec q])).totalAmount = .num q := by
  show sumAmounts [normalizeExpense (amtRec q)] = _
  simp [sumAmounts, normalize_amtRec, jsAdd]

/-- C3 (corrected). Risk is computed from `totalAmount` alone with the
fixed strict thresholds `> 2000` for "high" and `> 800` for "medium":
so 800.01 gives "medium", 2000.00 gives "medium", 2000.01 gives "high",
799.99 gives "low" — but a total of exactly 800.00 gives "low", not
"medium", because the comparison is strict. -/
theorem c3_risk_amended (expenses : Option (List RawExpense)) (t : ℚ)
    (h : (computeBasicStats expenses).totalAmount = .num t) :
    (computeBasicStats expenses).riskLevel =
      if 2000 < t then "high" else if 800 < t then "medium" else "low" := by
  have hr : (computeBasicStats expenses).riskLevel =
      riskOf ((computeBasicStats expenses).totalAmount) := rfl
  rw [hr, h]
  simp [riskOf, jsGtC, jsGt]

/-- Witness for C3: the five threshold inputs, evaluated concretely. -/
theorem c3_risk_amended_witness :
    (computeBasicStats (some [amtRec 800])).riskLevel = "low"
    ∧ (computeBasicStats (some [amtRec (80001/100)])).riskLevel = "medium"
    ∧ (computeBasicStats (some [amtRec 2000])).riskLevel = "medium"
    ∧ (computeBasicStats (some [amtRec (200001/100)])).riskLevel = "high"
    ∧ (computeBasicStats (some [amtRec (79999/100)])).riskLevel = "low" := by
  refine ⟨?_, ?_, ?_, ?_, ?_⟩
  · rw [c3_risk_amended (some [amtRec 800]) 800 (totalAmount_amtRec 800)]
    norm_num
  · rw [c3_risk_amended (some [amtRec (80001/100)]) (80001/100)
      (totalAmount_amtRec (80001/100))]
    norm_num
  · rw [c3_risk_amended (some [amtRec 2000]) 2000 (totalAmount_amtRec 2000)]
    norm_num
  · rw [c3_risk_amended (some [amtRec (200001/100)]) (200001/100)
      (totalAmount_amtRec (200001/100))]
    norm_num
  · rw [c3_risk_amended (some [amtRec (79999/100)]) (79999/100)
      (totalAmount_amtRec (79999/100))]
    norm_num

/-- C3 counterexample: a total of exactly 800.00 yields "low", not
"medium" as claimed (`totalAmount > 800` is strict). -/
theorem c3_risk_cx :
    (computeBasicStats (some [amtRec 800])).totalAmount = .num 800
    ∧ (computeBasicStats (some [amtRec 800])).riskLevel = "low"
    ∧ "low" ≠ "medium" := by
  refine ⟨totalAmount_amtRec 800, ?_, by decide⟩
  show riskOf ((computeBasicStats (some [amtRec 800])).totalAmount) = "low"
  rw [totalAmount_amtRec 800]
  simp [riskOf, jsGtC, jsGt]
  norm_num

/-- C5 (confirmed). For count >= 3 the trend compares (with JS
comparison semantics) the sum of the first `third = max(1, floor(n/3))`
records against the sum of the last `third` records, in input order:
"increasing" when `lastSum > firstSum * 1.05`, "decreasing" when
`lastSum < firstSum * 0.95`, else "stable"; for count < 3 the trend is
"stable" regardless of amounts. The concrete examples
[10,10,20] => "increasing", [20,10,10] => "decreasing",
[10,10,10] => "stable" are checked in the witness. -/
theorem c5_trend (l : List RawExpense) :
    (3 ≤ l.length →
      (computeBasicStats (some l)).spendingTrend =
        (if jsGt (sumAmounts ((l.map normalizeExpense).drop
              (l.length - max 1 (l.length / 3))))
            (jsMulC (sumAmounts ((l.map normalizeExpense).take
              (max 1 (l.length / 3)))) (105/100)) then "increasing"
         else if jsLt (sumAmounts ((l.map normalizeExpense).drop
              (l.length - max 1 (l.length / 3))))
            (jsMulC (sumAmounts ((l.map normalizeExpense).take
              (max 1 (l.length / 3)))) (95/100)) then "decreasing"
         else "stable"))
    ∧ (l.length < 3 → (computeBasicStats (some l)).spendingTrend = "stable") := by
  have hlen : (l.map normalizeExpense).length = l.length := List.length_map _ _
  constructor
  · intro h3
    show trendOf (l.map normalizeExpense) = _
    simp only [trendOf, hlen]
    rw [if_pos h3]
  · intro h3
    show trendOf (l.map normalizeExpense) = _
    simp only [trendOf, hlen]
    rw [if_neg (by omega)]

/-- Witness for C5: the three 3-record examples and a 2-record list
whose amounts would otherwise read "increasing". -/
theorem c5_trend_witness :
    (computeBasicStats (some [amtRec 10, amtRec 10, amtRec 20])).spendingTrend
      = "increasing"
    ∧ (computeBasicStats (some [amtRec 20, amtRec 10, amtRec 10])).spendingTrend
        = "decreasing"
    ∧ (computeBasicStats (some [amtRec 10, amtRec 10, amtRec 10])).spendingTrend
        = "stable"
    ∧ (computeBasicStats (some [amtRec 5, amtRec 100])).spendingTrend = "stable" := by
  refine ⟨?_, ?_, ?_, ?_⟩
  · rw [(c5_trend [amtRec 10, amtRec 10, amtRec 20]).1 (by decide)]
    simp [normalize_amtRec, sumAmounts, normalizeExpense, amtRec, jsTruthy,
      jsToNumber, jsAdd, jsGt, jsLt, jsMulC]
    norm_num
  · rw [(c5_trend [amtRec 20, amtRec 10, amtRec 10]).1 (by decide)]
    simp [normalize_amtRec, sumAmounts, normalizeExpense, amtRec, jsTruthy,
      jsToNumber, jsAdd, jsGt, jsLt, jsMulC]
    norm_num
  · rw [(c5_trend [amtRec 10, amtRec 10, amtRec 10]).1 (by decide)]
    simp [normalize_amtRec, sumAmounts, normalizeExpense, amtRec, jsTruthy,
      jsToNumber, jsAdd, jsGt, jsLt, jsMulC]
    norm_num
  · exact (c5_trend [amtRec 5, amtRec 100]).2 (by decide)

/-- Half-up rounding at the cent moves a value by at most 1/200. -/
theorem round2_bound (x : ℚ) :
    |((⌊x * 100 + 1/2⌋ : ℚ) * (1/100)) - x| ≤ 1/200 := by
  have h1 : ((⌊x * 100 + 1/2⌋ : ℤ) : ℚ) ≤ x * 100 + 1/2 := Int.floor_le _
  have h2 : x * 100 + 1/2 < (⌊x * 100 + 1/2⌋ : ℤ) + 1 := Int.lt_floor_add_one _
  rw [abs_le]
  constructor <;> linarith

/-- C7 (corrected). For a non-empty list whose coerced amounts are all
finite, `averageTransaction * count` is within ±(0.005 * count) of
`totalAmount` — the half-up rounding of the average to 2 decimals can
move it by up to 0.005, so the accumulated deviation grows with the
count and the claimed fixed ±0.01 tolerance fails once the count
exceeds 2. -/
theorem c7_average_amended (l : List RawExpense) (h0 : l ≠ [])
    (hfin : ∀ e ∈ (computeBasicStats (some l)).normalized, e.amount ≠ JSNum.nan) :
    ∃ t a : ℚ, (computeBasicStats (some l)).totalAmount = .num t
      ∧ (computeBasicStats (some l)).averageTransaction = .num a
      ∧ |a * l.length - t| ≤ (l.length : ℚ) / 200 := by
  have hfin' : ∀ e ∈ l.map normalizeExpense, e.amount ≠ JSNum.nan := hfin
  obtain ⟨t, ht⟩ := sumAmounts_finite hfin'
  have hlen : (l.map normalizeExpense).length = l.length := List.length_map _ _
  have hn : l.length ≠ 0 := fun h => h0 (List.length_eq_zero.mp h)
  have hnq : (0 : ℚ) < l.length := by
    exact_mod_cast Nat.pos_of_ne_zero hn
  refine ⟨t, (⌊t / l.length * 100 + 1/2⌋ : ℤ) * (1/100), ht, ?_, ?_⟩
  · show roundTo2 (avgOf (sumAmounts (l.map normalizeExpense))
      (l.map normalizeExpense).length) = _
    rw [ht, hlen]
    simp [avgOf, hn, jsDivC, roundTo2, jsMulC, jsRound]
  · have hb := round2_bound (t / l.length)
    have hq : ((⌊t / l.length * 100 + 1/2⌋ : ℤ) : ℚ) * (1/100) * l.length - t =
        (((⌊t / l.length * 100 + 1/2⌋ : ℤ) : ℚ) * (1/100) - t / l.length) *
          l.length := by
      field_simp
      ring
    rw [hq, abs_mul, abs_of_pos hnq]
    calc |((⌊t / l.length * 100 + 1/2⌋ : ℤ) : ℚ) * (1/100) - t / l.length| *
          l.length
        ≤ 1/200 * l.length := mul_le_mul_of_nonneg_right hb (le_of_lt hnq)
      _ = (l.length : ℚ) / 200 := by ring

/-- Witness for C7: a single record of amount 10 satisfies the bound. -/
theorem c7_average_amended_witness :
    ([amtRec 10] ≠ [])
    ∧ (∀ e ∈ (computeBasicStats (some [amtRec 10])).normalized,
        e.amount ≠ JSNum.nan)
    ∧ ∃ t a : ℚ, (computeBasicStats (some [amtRec 10])).totalAmount = .num t
        ∧ (computeBasicStats (some [amtRec 10])).averageTransaction = .num a
        ∧ |a * ([amtRec 10] : List RawExpense).length - t| ≤
            (([amtRec 10] : List RawExpense).length : ℚ) / 200 := by
  have hfin : ∀ e ∈ (computeBasicStats (some [amtRec 10])).normalized,
      e.amount ≠ JSNum.nan := by
    intro e he
    have he' : e ∈ [normalizeExpense (amtRec 10)] := he
    have : e = normalizeExpense (amtRec 10) := by simpa using he'
    rw [this, normalize_amtRec]
    simp
  exact ⟨by simp, hfin, c7_average_amended [amtRec 10] (by simp) hfin⟩

/-- C7 counterexample: seven records with amounts [1,0,0,0,0,0,0] give
total 1 and rounded average 0.14, and |0.14 * 7 - 1| = 0.02 exceeds the
claimed ±0.01 tolerance. -/
theorem c7_average_cx :
    (computeBasicStats (some [amtRec 1, amtRec 0, amtRec 0, amtRec 0,
      amtRec 0, amtRec 0, amtRec 0])).totalAmount = .num 1
    ∧ (computeBasicStats (some [amtRec 1, amtRec 0, amtRec 0, amtRec 0,
        amtRec 0, amtRec 0, amtRec 0])).averageTransaction = .num (7/50)
    ∧ ¬ (|(7/50 : ℚ) * 7 - 1| ≤ 1/100) := by
  have htot : (computeBasicStats (some [amtRec 1, amtRec 0, amtRec 0, amtRec 0,
      amtRec 0, amtRec 0, amtRec 0])).totalAmount = .num 1 := by
    show sumAmounts (normalizeList (some [amtRec 1, amtRec 0, amtRec 0,
      amtRec 0, amtRec 0, amtRec 0, amtRec 0])) = _
    simp [normalizeList, sumAmounts, normalize_amtRec, jsAdd]
  have habs : ¬ (|(7/50 : ℚ) * 7 - 1| ≤ 1/100) := by
    rw [show (7/50 : ℚ) * 7 - 1 = -(1/50) by norm_num]
    rw [abs_neg, abs_of_pos (by norm_num : (0:ℚ) < 1/50)]
    norm_num
  refine ⟨htot, ?_, habs⟩
  have havg : (computeBasicStats (some [amtRec 1, amtRec 0, amtRec 0, amtRec 0,
      amtRec 0, amtRec 0, amtRec 0])).averageTransaction =
      roundTo2 (avgOf ((computeBasicStats (some [amtRec 1, amtRec 0, amtRec 0,
        amtRec 0, amtRec 0, amtRec 0, amtRec 0])).totalAmount)
        (normalizeList (some [amtRec 1, amtRec 0, amtRec 0, amtRec 0,
          amtRec 0, amtRec 0, amtRec 0])).length) := rfl
  rw [havg, htot]
  norm_num [normalizeList, avgOf, jsDivC, roundTo2, jsMulC, jsRound]

theorem mem_jsInsertBy {lt : String → String → Bool} {x a : String}
    {l : List String} : a ∈ jsInsertBy lt x l ↔ a = x ∨ a ∈ l := by
  induction l with
  | nil => simp [jsInsertBy]
  | cons y ys ih =>
    simp only [jsInsertBy]
    split
    · exact List.mem_cons
    · simp only [List.mem_cons, ih]
      tauto

/-- Inserting preserves the head-is-unbeaten invariant for the JS
descending-sum comparator. -/
theorem jsInsertBy_headMax (v : String → JSNum) (x : String) (l : List String)
    (hl : ∀ h ∈ l.head?, ∀ y ∈ l, jsGt (v y) (v h) = false) :
    ∀ h ∈ (jsInsertBy (fun a b => jsGt (v a) (v b)) x l).head?,
      ∀ y ∈ jsInsertBy (fun a b => jsGt (v a) (v b)) x l,
        jsGt (v y) (v h) = false := by
  cases l with
  | nil =>
    intro h hh y hy
    simp [jsInsertBy] at hh hy
    rw [hy, ← hh]
    exact jsGt_irrefl _
  | cons z zs =>
    by_cases hxz : jsGt (v x) (v z) = true
    · intro h hh y hy
      simp only [jsInsertBy, hxz, if_true, List.head?_cons, Option.mem_def,
        Option.some.injEq] at hh
      subst hh
      simp only [jsInsertBy, hxz, if_true, List.mem_cons] at hy
      rcases hy with rfl | hy
      · exact jsGt_irrefl _
      · have hyz : jsGt (v y) (v z) = false :=
          hl z (by simp) y (by simpa using hy)
        exact jsGt_trans_neg hxz hyz
    · intro h hh y hy
      rw [Bool.not_eq_true] at hxz
      simp only [jsInsertBy, hxz, Bool.false_eq_true, if_false,
        List.head?_cons, Option.mem_def, Option.some.injEq] at hh
      subst hh
      simp only [jsInsertBy, hxz, Bool.false_eq_true, if_false,
        List.mem_cons, mem_jsInsertBy] at hy
      rcases hy with rfl | hy' | hy'
      · exact jsGt_irrefl _
      · rw [hy']
        exact hxz
      · exact hl z (by simp) y (by simp [hy'])

/-- The fold of insertions keeps the head-is-unbeaten invariant. -/
theorem foldl_insert_headMax (v : String → JSNum) (l : List String) :
    ∀ acc : List String,
      (∀ h ∈ acc.head?, ∀ y ∈ acc, jsGt (v y) (v h) = false) →
      ∀ h ∈ (l.foldl (fun acc x =>
          jsInsertBy (fun a b => jsGt (v a) (v b)) x acc) acc).head?,
        ∀ y ∈ l.foldl (fun acc x =>
            jsInsertBy (fun a b => jsGt (v a) (v b)) x acc) acc,
          jsGt (v y) (v h) = false := by
  induction l with
  | nil => intro acc hacc; exact hacc
  | cons x xs ih =>
    intro acc hacc
    exact ih _ (jsInsertBy_headMax v x acc hacc)

theorem jsSortBy_headMax (v : String → JSNum) (l : List String) :
    ∀ h ∈ (jsSortBy (fun a b => jsGt (v a) (v b)) l).head?,
      ∀ y ∈ jsSortBy (fun a b => jsGt (v a) (v b)) l,
        jsGt (v y) (v h) = false :=
  foldl_insert_headMax v l [] (by intro h hh; simp at hh)

theorem mem_foldl_insert {lt : String → String → Bool} (l : List String) :
    ∀ (acc : List String) (a : String),
      (a ∈ l.foldl (fun acc x => jsInsertBy lt x acc) acc ↔ a ∈ acc ∨ a ∈ l) := by
  induction l with
  | nil => simp
  | cons x xs ih =>
    intro acc a
    simp only [List.foldl_cons, ih, mem_jsInsertBy, List.mem_cons]
    tauto

theorem mem_jsSortBy {lt : String → String → Bool} {l : List String}
    {a : String} : a ∈ jsSortBy lt l ↔ a ∈ l := by
  simpa using mem_foldl_insert l [] a

/-- The source comparator `(a, b) => bd[b] - bd[a]` orders `a` strictly
before `b` exactly when `bd[a] > bd[b]` under JS comparison. -/
theorem sortLt_eq (bd : List (String × JSNum)) :
    (fun a b => cmpLtZero (jsSub (bdVal bd b) (bdVal bd a))) =
      (fun a b => jsGt (bdVal bd a) (bdVal bd b)) := by
  funext a b
  exact cmpLtZero_jsSub _ _

/-- Updating an existing category leaves the key list unchanged. -/
theorem bdUpdate_keys (bd : List (String × JSNum)) (cat : String) (amt : JSNum) :
    (bd.map (fun p =>
      if p.1 = cat then (p.1, jsAdd (if jsTruthyNum p.2 then p.2 else .num 0) amt)
      else p)).map Prod.fst = bd.map Prod.fst := by
  rw [List.map_map]
  apply List.map_congr_left
  intro p _
  by_cases h : p.1 = cat <;> simp [h]

theorem mem_keys_of_bdLookup_some {bd : List (String × JSNum)} {cat : String}
    {v : JSNum} (h : bdLookup bd cat = some v) : cat ∈ bd.map Prod.fst := by
  unfold bdLookup at h
  obtain ⟨p, hp, hpv⟩ := Option.map_eq_some'.mp h
  have hmem := List.mem_of_find?_eq_some hp
  have hcat : p.1 = cat := by simpa using List.find?_some hp
  exact hcat ▸ List.mem_map_of_mem Prod.fst hmem

theorem bdAdd_keys_mono {bd : List (String × JSNum)} {k : String}
    (cat : String) (amt : JSNum) (h : k ∈ bd.map Prod.fst) :
    k ∈ (bdAdd bd cat amt).map Prod.fst := by
  unfold bdAdd
  split
  · rw [bdUpdate_keys]
    exact h
  · simp only [List.map_append]
    exact List.mem_append_left _ h

theorem self_mem_bdAdd_keys (bd : List (String × JSNum)) (cat : String)
    (amt : JSNum) : cat ∈ (bdAdd bd cat amt).map Prod.fst := by
  unfold bdAdd
  split
  · next v hv =>
    rw [bdUpdate_keys]
    exact mem_keys_of_bdLookup_some hv
  · simp

theorem bdAdd_keys_cases {bd : List (String × JSNum)} {k cat : String}
    {amt : JSNum} (h : k ∈ (bdAdd bd cat amt).map Prod.fst) :
    k ∈ bd.map Prod.fst ∨ k = cat := by
  unfold bdAdd at h
  split at h
  · rw [bdUpdate_keys] at h
    exact Or.inl h
  · simp only [List.map_append, List.mem_append] at h
    rcases h with h | h
    · exact Or.inl h
    · simp at h
      exact Or.inr h

theorem foldl_bdAdd_keys_mono (ns : List NormExpense) :
    ∀ (acc : List (String × JSNum)) (k : String), k ∈ acc.map Prod.fst →
      k ∈ (ns.foldl (fun acc e => bdAdd acc e.category e.amount) acc).map
        Prod.fst := by
  induction ns with
  | nil => intro acc k h; exact h
  | cons x xs ih =>
    intro acc k h
    exact ih _ k (bdAdd_keys_mono _ _ h)

theorem category_mem_foldl_keys (ns : List NormExpense) :
    ∀ (acc : List (String × JSNum)), ∀ e ∈ ns,
      e.category ∈ (ns.foldl (fun acc e => bdAdd acc e.category e.amount) acc).map
        Prod.fst := by
  induction ns with
  | nil => intro acc e he; cases he
  | cons x xs ih =>
    intro acc e he
    rcases List.mem_cons.mp he with rfl | he'
    · exact foldl_bdAdd_keys_mono xs _ _ (self_mem_bdAdd_keys acc _ _)
    · exact ih _ e he'

theorem foldl_keys_from_records (ns : List NormExpense) :
    ∀ (acc : List (String × JSNum)) (k : String),
      k ∈ (ns.foldl (fun acc e => bdAdd acc e.category e.amount) acc).map
        Prod.fst →
      k ∈ acc.map Prod.fst ∨ ∃ e ∈ ns, e.category = k := by
  induction ns with
  | nil => intro acc k h; exact Or.inl h
  | cons x xs ih =>
    intro acc k h
    rcases ih _ k h with h' | ⟨e, he, hc⟩
    · rcases bdAdd_keys_cases h' with h'' | rfl
      · exact Or.inl h''
      · exact Or.inr ⟨x, List.mem_cons_self x xs, rfl⟩
    · exact Or.inr ⟨e, List.mem_cons_of_mem _ he, hc⟩

/-- A normalized category is never the empty string: a truthy raw
category is a non-empty string, and the default is "others". -/
theorem normalize_category_ne (e : RawExpense) :
    (normalizeExpense e).category ≠ "" := by
  show (match truthyStr e.category with
        | some s => s
        | none => "others") ≠ ""
  cases hc : e.category with
  | none => decide
  | some s =>
    by_cases hs : s = ""
    · rw [hs]
      decide
    · simp only [truthyStr, if_neg hs]
      exact hs

/-- The head of the sorted key list is a key whose breakdown value no
other key's value beats under JS comparison. -/
theorem topCategoryOf_spec (ns : List NormExpense) (hne : ns ≠ [])
    (hcat : ∀ e ∈ ns, e.category ≠ "") :
    ∃ k, topCategoryOf (buildBreakdown ns) = some k
      ∧ k ∈ (buildBreakdown ns).map Prod.fst
      ∧ ∀ k' ∈ (buildBreakdown ns).map Prod.fst,
          jsGt (bdVal (buildBreakdown ns) k') (bdVal (buildBreakdown ns) k)
            = false := by
  obtain ⟨e0, hl0⟩ := List.exists_mem_of_ne_nil ns hne
  have hkey : e0.category ∈ (buildBreakdown ns).map Prod.fst :=
    category_mem_foldl_keys ns [] e0 hl0
  have hmem : e0.category ∈ jsSortBy
      (fun a b => jsGt (bdVal (buildBreakdown ns) a) (bdVal (buildBreakdown ns) b))
      ((buildBreakdown ns).map Prod.fst) := mem_jsSortBy.mpr hkey
  obtain ⟨h, t, hst⟩ := List.exists_cons_of_ne_nil (List.ne_nil_of_mem hmem)
  have hh_keys : h ∈ (buildBreakdown ns).map Prod.fst := by
    apply mem_jsSortBy.mp
    rw [hst]
    exact List.mem_cons_self h t
  have hh_ne : h ≠ "" := by
    rcases foldl_keys_from_records ns [] h hh_keys with h0 | ⟨e, he, hc⟩
    · simp at h0
    · exact hc ▸ hcat e he
  refine ⟨h, ?_, hh_keys, ?_⟩
  · unfold topCategoryOf
    rw [sortLt_eq, hst]
    simp [hh_ne]
  · intro k' hk'
    exact jsSortBy_headMax (bdVal (buildBreakdown ns))
      ((buildBreakdown ns).map Prod.fst) h (by rw [hst]; rfl) k'
      (mem_jsSortBy.mpr hk')

/-- C8 (confirmed). For a non-empty input list, `topCategory` is a key
of `categoryBreakdown` that no other key's breakdown value exceeds
under JS comparison, and the choice is deterministic and reproducible
since `computeBasicStats` is a pure function of its input (the
embedding models the sort as the ECMAScript-stable insertion order, so
ties keep first-encountered key order); for an empty list `topCategory`
is null. -/
theorem c8_topCategory (l : List RawExpense) :
    (l ≠ [] → ∃ k,
      (computeBasicStats (some l)).topCategory = some k
      ∧ k ∈ (computeBasicStats (some l)).categoryBreakdown.map Prod.fst
      ∧ ∀ k' ∈ (computeBasicStats (some l)).categoryBreakdown.map Prod.fst,
          jsGt (bdVal (computeBasicStats (some l)).categoryBreakdown k')
            (bdVal (computeBasicStats (some l)).categoryBreakdown k) = false)
    ∧ (l = [] → (computeBasicStats (some l)).topCategory = none) := by
  constructor
  · intro hne
    obtain ⟨a, l', rfl⟩ := List.exists_cons_of_ne_nil hne
    have hnsne : (a :: l').map normalizeExpense ≠ [] := by simp
    have hcat : ∀ e ∈ (a :: l').map normalizeExpense, e.category ≠ "" := by
      intro e he
      obtain ⟨e', _, rfl⟩ := List.mem_map.mp he
      exact normalize_category_ne e'
    exact topCategoryOf_spec ((a :: l').map normalizeExpense) hnsne hcat
  · intro h0
    subst h0
    decide

/-- Witness for C8: a one-record list has its (defaulted) category as
top, and the empty list has null. -/
theorem c8_topCategory_witness :
    (([amtRec 5] : List RawExpense) ≠ [])
    ∧ (∃ k, (computeBasicStats (some [amtRec 5])).topCategory = some k
        ∧ k ∈ (computeBasicStats (some [amtRec 5])).categoryBreakdown.map Prod.fst
        ∧ ∀ k' ∈ (computeBasicStats (some [amtRec 5])).categoryBreakdown.map
            Prod.fst,
            jsGt (bdVal (computeBasicStats (some [amtRec 5])).categoryBreakdown k')
              (bdVal (computeBasicStats (some [amtRec 5])).categoryBreakdown k)
              = false)
    ∧ (computeBasicStats (some ([] : List RawExpense))).topCategory = none :=
  ⟨by simp, (c8_topCategory [amtRec 5]).1 (by simp), (c8_topCategory []).2 rfl⟩

theorem jsLt_nan_left (b : JSNum) : jsLt .nan b = false := by
  cases b <;> simp [jsLt]

theorem jsLt_nan_right (a : JSNum) : jsLt a .nan = false := by
  cases a <;> simp [jsLt]

/-- C10 (corrected). A truthy amount that does not coerce to a number
normalizes to NaN and makes `totalAmount` and `averageTransaction` NaN
while `riskLevel` is "low" (NaN comparisons are false); but
`spendingTrend` is only guaranteed "stable" when the count is below 3
or some NaN amount falls inside the first-third or last-third slice —
a NaN confined to the middle records leaves both compared sums real,
and the trend can still be "increasing" or "decreasing". -/
theorem c10_nan_amended (l : List RawExpense) (e : RawExpense) (he : e ∈ l)
    (ht : jsTruthy e.amount = true) (hn : jsToNumber e.amount = .nan) :
    (normalizeExpense e).amount = .nan
    ∧ (computeBasicStats (some l)).totalAmount = .nan
    ∧ (computeBasicStats (some l)).averageTransaction = .nan
    ∧ (computeBasicStats (some l)).riskLevel = "low"
    ∧ ((l.length < 3 ∨
        (∃ f ∈ (l.map normalizeExpense).take (max 1 (l.length / 3)),
          f.amount = JSNum.nan) ∨
        (∃ f ∈ (l.map normalizeExpense).drop (l.length - max 1 (l.length / 3)),
          f.amount = JSNum.nan)) →
        (computeBasicStats (some l)).spendingTrend = "stable") := by
  have hmem : normalizeExpense e ∈ l.map normalizeExpense :=
    List.mem_map_of_mem normalizeExpense he
  have hamount : (normalizeExpense e).amount = .nan := by
    show (if jsTruthy e.amount then jsToNumber e.amount else .num 0) = .nan
    rw [if_pos ht, hn]
  have htotal : sumAmounts (l.map normalizeExpense) = .nan :=
    sumAmounts_nan hmem hamount
  have hn0 : (l.map normalizeExpense).length ≠ 0 := by
    intro h0
    rw [List.length_eq_zero] at h0
    rw [h0] at hmem
    cases hmem
  refine ⟨hamount, htotal, ?_, ?_, ?_⟩
  · show roundTo2 (avgOf (sumAmounts (l.map normalizeExpense))
      (l.map normalizeExpense).length) = .nan
    rw [htotal]
    unfold avgOf
    rw [if_neg hn0]
    simp [jsDivC, roundTo2, jsMulC, jsRound]
  · show riskOf (sumAmounts (l.map normalizeExpense)) = "low"
    rw [htotal]
    simp [riskOf, jsGtC, jsGt_nan_left]
  · intro hcond
    show trendOf (l.map normalizeExpense) = "stable"
    simp only [trendOf, List.length_map]
    by_cases h3 : 3 ≤ l.length
    · rw [if_pos h3]
      rcases hcond with hlt | ⟨f, hf, hfn⟩ | ⟨f, hf, hfn⟩
      · omega
      · rw [sumAmounts_nan hf hfn]
        simp [jsMulC, jsGt_nan_right, jsLt_nan_right]
      · rw [sumAmounts_nan hf hfn]
        simp [jsGt_nan_left, jsLt_nan_left]
    · rw [if_neg h3]

/-- Witness for C10: a single "abc"-amount record — NaN total and
average, risk "low", and (count < 3) trend "stable". -/
theorem c10_nan_amended_witness :
    (normalizeExpense abcRec).amount = .nan
    ∧ (computeBasicStats (some [abcRec])).totalAmount = .nan
    ∧ (computeBasicStats (some [abcRec])).averageTransaction = .nan
    ∧ (computeBasicStats (some [abcRec])).riskLevel = "low"
    ∧ (computeBasicStats (some [abcRec])).spendingTrend = "stable" := by
  have h := c10_nan_amended [abcRec] abcRec (by simp) (by decide) (by decide)
  exact ⟨h.1, h.2.1, h.2.2.1, h.2.2.2.1, h.2.2.2.2 (Or.inl (by decide))⟩

/-- C10 counterexample: with amounts [10, "abc", 0, 20] the NaN record
sits strictly inside the middle, the compared sums are 10 and 20, and
the trend is "increasing", not "stable" as claimed. -/
theorem c10_nan_cx :
    (normalizeExpense abcRec).amount = .nan
    ∧ (computeBasicStats (some [amtRec 10, abcRec, amtRec 0,
        amtRec 20])).spendingTrend = "increasing"
    ∧ "increasing" ≠ "stable" := by
  refine ⟨by decide, ?_, by decide⟩
  show trendOf ([amtRec 10, abcRec, amtRec 0, amtRec 20].map normalizeExpense)
    = "increasing"
  norm_num [trendOf, sumAmounts, normalize_amtRec, jsAdd, jsGt, jsLt, jsMulC]

end ExpenseTracker
